import Mathlib

/-!
Shallow embedding of the optimization decision engine of the Amazon-Agent
repository (src/app/utils/keyword_classifier.py, src/app/utils/optimizer.py,
src/app/utils/placement_adjuster.py).  Python floats are modelled as rationals,
pandas NaN entries of the ratio columns as `Option ℚ` (`none` = NaN), and the
row-by-row appending loops as explicit list folds.
-/

namespace AmazonAgent

/-! ## Rounding (Python `round(x, d)`, round-half-to-even) -/

/-- Python's builtin `round` with no decimals: round half to even. -/
def roundHalfEven (q : ℚ) : ℤ :=
  if q - ⌊q⌋ < 1/2 then ⌊q⌋
  else if q - ⌊q⌋ > 1/2 then ⌊q⌋ + 1
  else if ⌊q⌋ % 2 = 0 then ⌊q⌋ else ⌊q⌋ + 1

/-- Python's `round(q, d)`: round half to even at `d` decimal places. -/
def roundTo (d : ℕ) (q : ℚ) : ℚ :=
  (roundHalfEven (q * 10 ^ d) : ℚ) / 10 ^ d

/-! ## Comparisons against a possibly-NaN (missing) value

`oLt x b` is Python's `(not pd.isna(x)) and x < b`, and similarly for the
others: a comparison with NaN is always false. -/

def oLt (x : Option ℚ) (b : ℚ) : Bool :=
  match x with
  | none => false
  | some v => decide (v < b)

def oLe (x : Option ℚ) (b : ℚ) : Bool :=
  match x with
  | none => false
  | some v => decide (v ≤ b)

def oGt (x : Option ℚ) (b : ℚ) : Bool :=
  match x with
  | none => false
  | some v => decide (b < v)

def oGe (x : Option ℚ) (b : ℚ) : Bool :=
  match x with
  | none => false
  | some v => decide (b ≤ v)

/-! ## keyword_classifier.py: classify_keywords

One keyword row of the campaign sheet after metric normalization (lines
23-41 of the source ensure the `acos` / `conversion_rate` columns exist,
deriving them as `spend / sales` resp. `orders / clicks` with a zero
denominator replaced by NaN).  Here `acos`/`conversionRate` are the
normalized column values, `none` standing for NaN.  ACOS and conversion
rate are fractions in this module (0.2 = 20%).  The `matchType` and
campaign-id columns are pure pass-through text and are elided. -/

structure KwRow where
  entitaet : String
  keyword : String
  clicks : ℚ
  spend : ℚ
  sales : ℚ
  orders : ℚ
  acos : Option ℚ
  conversionRate : Option ℚ
deriving DecidableEq

inductive KwStatus
  | gut
  | schlecht
deriving DecidableEq

/-- The reason string attached to a classification; each constructor is one
of the f-string templates of lines 59-82 of keyword_classifier.py, carrying
the raw value(s) it interpolates (the source renders `v * 100` with one
decimal, or "N/A" for a missing value — presentation only). -/
inductive KwReason
  | keineVerkaeufe
  | keineConversions (clicks : ℚ)
  | hoherAcosNiedrigeCr (acos cr : Option ℚ)
  | acosUeberZiel (acos : Option ℚ)
  | niedrigeCr (cr : Option ℚ)
  | gutePerformance (acos cr : Option ℚ)
  | fallbackAcosUeberZiel (acos : Option ℚ)
deriving DecidableEq

/-- Lines 59-82 of keyword_classifier.py: the per-row rule cascade.
`t` is `target_acos` (fraction), `m` is `min_conversion_rate` (fraction);
the 25-click threshold of rule 2 is hard-coded in the source. -/
def classifyRow (t m : ℚ) (r : KwRow) : KwStatus × KwReason :=
  if r.sales = 0 then (.schlecht, .keineVerkaeufe)
  else if 25 ≤ r.clicks ∧ r.orders = 0 then (.schlecht, .keineConversions r.clicks)
  else if oGt r.acos t || oLt r.conversionRate m then
    if oGt r.acos t && oLt r.conversionRate m then
      (.schlecht, .hoherAcosNiedrigeCr r.acos r.conversionRate)
    else if oGt r.acos t then (.schlecht, .acosUeberZiel r.acos)
    else (.schlecht, .niedrigeCr r.conversionRate)
  else if oLe r.acos t && oGe r.conversionRate m then
    (.gut, .gutePerformance r.acos r.conversionRate)
  else (.schlecht, .fallbackAcosUeberZiel r.acos)

/-- classify_keywords: keep only the rows whose `entität` column says
"keyword" (case-insensitively) and classify each in row order.  The source
additionally copies the row's metric columns into the output record
(coercing a NaN ACOS to 0 there); those pass-through fields are elided. -/
def classifyKeywords (t m : ℚ) (rows : List KwRow) : List (KwStatus × KwReason) :=
  (rows.filter (fun r => r.entitaet.toLower == "keyword")).map (classifyRow t m)

/-! ## optimizer.py: client configuration and target-ACOS resolution -/

/-- The `client_config` dict entries read by optimizer.py, with the
defaults the source supplies via `.get`.  ACOS and conversion rate are
percentages in this module (20.0 = 20%). -/
structure OptConfig where
  isMarketLeader : Bool := false
  hasLargeInventory : Bool := false
  targetAcos : Option ℚ := none
  keywordsMinClicks : ℚ := 25
  minConversionRate : ℚ := 10
deriving DecidableEq

/-- Lines 42-49 (and 167-174) of optimizer.py: default 20, market leader or
large inventory force 8, and an explicit `target_acos` overrides everything. -/
def resolveTargetAcos (c : OptConfig) : ℚ :=
  let t : ℚ := 20
  let t := if c.isMarketLeader then (8 : ℚ) else t
  let t := if c.hasLargeInventory then (8 : ℚ) else t
  match c.targetAcos with
  | some v => v
  | none => t

/-! ## optimizer.py: analyze_keywords -/

/-- One row of `df_search_terms` after the normalization of lines 51-72:
`acos`, `conversion_rate` and `cpc` may be NaN (`none`); `clicks`, `orders`,
`spend` and `sales` are numeric.  The source distinguishes a `keyword`
column (biddable keyword) from `customer_search_term`, falling back to a
shared `search_term` column when either is absent; both identifiers are
modelled by the single `keyword` field. -/
structure STRow where
  keyword : String
  clicks : ℚ
  orders : ℚ
  spend : ℚ
  sales : ℚ
  acos : Option ℚ
  cpc : Option ℚ
  conversionRate : Option ℚ
deriving DecidableEq

inductive KwAction
  | pause
  | keep
deriving DecidableEq

/-- The reason templates of the keyword-change records built in
analyze_keywords (lines 87, 116, 142). -/
inductive ChangeReason
  | noConversions (clicks : ℚ)
  | highAcosLowCr (acos cr : Option ℚ)
  | goodPerformance (acos cr : Option ℚ)
deriving DecidableEq

/-- A keyword-change record; `orig*` is the `original_data` snapshot of the
row's metric columns the source stores alongside the decision. -/
structure KwChange where
  keyword : String
  action : KwAction
  reason : ChangeReason
  origClicks : ℚ
  origOrders : ℚ
  origAcos : Option ℚ
  origCr : Option ℚ
deriving DecidableEq

/-- The duplicate guard of lines 102 and 128:
`any(change['keyword'] == keyword for change in keyword_changes)`. -/
def memKW (acc : List KwChange) (k : String) : Bool :=
  acc.any (fun c => c.keyword == k)

/-- Rule 1 mask (line 77): `clicks >= clicks_threshold and orders == 0`. -/
def optMask1 (thr : ℚ) (r : STRow) : Bool :=
  decide (thr ≤ r.clicks) && decide (r.orders = 0)

/-- Rule 2 mask (lines 94-98):
`(not isna(acos)) and acos > target and (isna(cr) or cr < min_cr)`. -/
def optMask2 (t m : ℚ) (r : STRow) : Bool :=
  oGt r.acos t && (r.conversionRate.isNone || oLt r.conversionRate m)

/-- Rule 3 mask (lines 121-124):
`(isna(acos) or acos <= target) or ((not isna(cr)) and cr >= min_cr)`. -/
def optMask3 (t m : ℚ) (r : STRow) : Bool :=
  (r.acos.isNone || oLe r.acos t) || oGe r.conversionRate m

def pauseNoConv (r : STRow) : KwChange :=
  { keyword := r.keyword, action := .pause, reason := .noConversions r.clicks,
    origClicks := r.clicks, origOrders := r.orders, origAcos := r.acos,
    origCr := r.conversionRate }

def pauseHighAcos (r : STRow) : KwChange :=
  { keyword := r.keyword, action := .pause,
    reason := .highAcosLowCr r.acos r.conversionRate,
    origClicks := r.clicks, origOrders := r.orders, origAcos := r.acos,
    origCr := r.conversionRate }

def keepGood (r : STRow) : KwChange :=
  { keyword := r.keyword, action := .keep,
    reason := .goodPerformance r.acos r.conversionRate,
    origClicks := r.clicks, origOrders := r.orders, origAcos := r.acos,
    origCr := r.conversionRate }

/-- One appending pass over the rows: for each row, `g` looks at the records
accumulated so far and either appends one new record or appends nothing.
This is the shape shared by the three `for _, row in df[mask].iterrows()`
loops of analyze_keywords and by the loop of adjust_bids. -/
def accumStep {α β : Type} (g : List β → α → Option β) :
    List β → List α → List β
  | acc, [] => acc
  | acc, r :: rs =>
      accumStep g
        (match g acc r with
          | some c => acc ++ [c]
          | none => acc) rs

/-- Rule 1 loop body (lines 78-89): every matching row appends a pause
record; there is NO duplicate guard in this loop. -/
def ruleNoConv (thr : ℚ) (_acc : List KwChange) (r : STRow) : Option KwChange :=
  if optMask1 thr r then some (pauseNoConv r) else none

/-- Rule 2 loop body (lines 99-118): skip the row if its keyword already has
a record, else append a pause record. -/
def ruleHighAcos (t m : ℚ) (acc : List KwChange) (r : STRow) : Option KwChange :=
  if optMask2 t m r && !(memKW acc r.keyword) then some (pauseHighAcos r) else none

/-- Rule 3 loop body (lines 125-144): skip the row if its keyword already
has a record, else append a keep record. -/
def ruleKeep (t m : ℚ) (acc : List KwChange) (r : STRow) : Option KwChange :=
  if optMask3 t m r && !(memKW acc r.keyword) then some (keepGood r) else none

/-- analyze_keywords (lines 30-151): the three rule loops run in order over
the whole row set, each appending to the shared `keyword_changes` list. -/
def analyzeKeywords (cfg : OptConfig) (rows : List STRow) : List KwChange :=
  let t := resolveTargetAcos cfg
  let m := cfg.minConversionRate
  let thr := cfg.keywordsMinClicks
  accumStep (ruleKeep t m)
    (accumStep (ruleHighAcos t m)
      (accumStep (ruleNoConv thr) [] rows) rows) rows

/-! ## optimizer.py: adjust_bids -/

/-- The reason templates of get_bid_change_reason (lines 238-251). -/
inductive BidReason
  | noConversions (clicks : ℚ)
  | muchHigherThanTarget (acos target : ℚ)
  | higherThanTarget (acos target : ℚ)
  | muchLowerThanTarget (acos target : ℚ)
  | lowerThanTarget (acos target : ℚ)
  | acceptable
deriving DecidableEq

structure BidChange where
  keyword : String
  currentBid : ℚ
  newBid : ℚ
  changePct : ℚ
  reason : BidReason
deriving DecidableEq

/-- Lines 192-213 of adjust_bids: the piecewise adjustment factor.
`currentAcos` is the row's ACOS with NaN already coerced to 0 (line 189);
both ACOS values are percentages here. -/
def adjustmentFactor (currentAcos targetAcos orders : ℚ) : ℚ :=
  if currentAcos = 0 ∧ 0 < orders then 1.1
  else if currentAcos = 0 ∧ orders = 0 then 0.7
  else if targetAcos * 1.5 < currentAcos then 0.6
  else if targetAcos < currentAcos then targetAcos / currentAcos
  else if currentAcos < targetAcos * 0.5 ∧ 0 < orders then 1.3
  else if currentAcos < targetAcos ∧ 0 < orders then 1.1
  else 1

/-- get_bid_change_reason (lines 238-251). -/
def bidChangeReason (currentAcos targetAcos orders clicks : ℚ) : BidReason :=
  if currentAcos = 0 ∧ orders = 0 then .noConversions clicks
  else if targetAcos * 1.5 < currentAcos then .muchHigherThanTarget currentAcos targetAcos
  else if targetAcos < currentAcos then .higherThanTarget currentAcos targetAcos
  else if currentAcos < targetAcos * 0.5 ∧ 0 < orders then .muchLowerThanTarget currentAcos targetAcos
  else if currentAcos < targetAcos ∧ 0 < orders then .lowerThanTarget currentAcos targetAcos
  else .acceptable

/-- The body of the adjust_bids loop (lines 177-228) for one row: the row is
considered only when `clicks > 10`; it is skipped when the keyword-changes
list pauses its keyword; a NaN ACOS or CPC is coerced to 0 (lines 189-190);
and a record is emitted only when `|factor - 1| > 0.05`. -/
def bidDecision (kch : List KwChange) (t : ℚ) (r : STRow) : Option BidChange :=
  if 10 < r.clicks then
    if kch.any (fun c => c.keyword == r.keyword && c.action == KwAction.pause) then none
    else if 0.05 < |adjustmentFactor (r.acos.getD 0) t r.orders - 1| then
      some { keyword := r.keyword, currentBid := r.cpc.getD 0,
             newBid := r.cpc.getD 0 * adjustmentFactor (r.acos.getD 0) t r.orders,
             changePct := (adjustmentFactor (r.acos.getD 0) t r.orders - 1) * 100,
             reason := bidChangeReason (r.acos.getD 0) t r.orders r.clicks }
    else none
  else none

/-- adjust_bids (lines 154-235): fold the per-row decision over the rows.
The source stores the same `original_data` snapshot as analyze_keywords on
each record; that pass-through copy is elided. -/
def adjustBids (kch : List KwChange) (cfg : OptConfig) (rows : List STRow) :
    List BidChange :=
  let t := resolveTargetAcos cfg
  accumStep (fun _ r => bidDecision kch t r) [] rows

/-! ## optimizer.py: impact estimates -/

def sumSpend (rows : List STRow) : ℚ := (rows.map (·.spend)).sum

def sumSales (rows : List STRow) : ℚ := (rows.map (·.sales)).sum

/-- `[k['keyword'] for k in keyword_changes if k['action'] == 'pause']`. -/
def pauseKeywords (kch : List KwChange) : List String :=
  (kch.filter (fun c => c.action == KwAction.pause)).map (·.keyword)

/-- `df[df['keyword'].isin(ks)]['spend'].sum()`. -/
def spendIsin (rows : List STRow) (ks : List String) : ℚ :=
  ((rows.filter (fun r => ks.contains r.keyword)).map (·.spend)).sum

def salesIsin (rows : List STRow) (ks : List String) : ℚ :=
  ((rows.filter (fun r => ks.contains r.keyword)).map (·.sales)).sum

/-- `df[df['keyword'] == k]['spend'].sum()`. -/
def spendOfKeyword (rows : List STRow) (k : String) : ℚ :=
  ((rows.filter (fun r => r.keyword == k)).map (·.spend)).sum

/-- Lines 314-321: `sum over bid changes of keyword_spend * change_pct/100`. -/
def bidChangeImpact (rows : List STRow) (bch : List BidChange) : ℚ :=
  (bch.map (fun b => spendOfKeyword rows b.keyword * (b.changePct / 100))).sum

/-- Line 323: `new_spend = current_spend - paused_spend + bid_change_impact`. -/
def newSpendOf (rows : List STRow) (kch : List KwChange) (bch : List BidChange) : ℚ :=
  sumSpend rows - spendIsin rows (pauseKeywords kch) + bidChangeImpact rows bch

/-- Line 326: `new_sales = current_sales - paused_sales`. -/
def newSalesOf (rows : List STRow) (kch : List KwChange) : ℚ :=
  sumSales rows - salesIsin rows (pauseKeywords kch)

/-- estimate_acos_impact (lines 301-334).  The early `return 0` for a
missing `keyword` column is a Report-Loader precondition and is elided;
the degenerate-aggregate guard of line 328 and the per-ratio guards of
lines 331-332 are kept verbatim. -/
def estimateAcosImpact (rows : List STRow) (kch : List KwChange)
    (bch : List BidChange) : ℚ :=
  if newSalesOf rows kch = 0 ∨ sumSales rows = 0 ∨ newSpendOf rows kch bch < 0 then 0
  else
    (if 0 < sumSales rows then sumSpend rows / sumSales rows * 100 else 0) -
    (if 0 < newSalesOf rows kch then newSpendOf rows kch bch / newSalesOf rows kch * 100 else 0)

/-- estimate_cost_savings (lines 337-357): paused spend plus the absolute
spend deltas of the bid decreases only. -/
def estimateCostSavings (rows : List STRow) (kch : List KwChange)
    (bch : List BidChange) : ℚ :=
  spendIsin rows (pauseKeywords kch) +
    ((bch.filter (fun b => decide (b.changePct < 0))).map
      (fun b => spendOfKeyword rows b.keyword * |b.changePct / 100|)).sum

/-- estimate_efficiency_improvement (lines 360-378).  `valid_acos` is the
list of non-NaN ACOS values (the source also drops ±inf, which ℚ cannot
represent); the empty case covers both the all-NaN early return and the
`if not valid_acos.empty else 0` guard. -/
def estimateEfficiencyImprovement (rows : List STRow) (kch : List KwChange)
    (bch : List BidChange) : ℚ :=
  let validAcos := rows.filterMap (·.acos)
  if validAcos = [] then 0
  else
    let currentAvgAcos := validAcos.sum / validAcos.length
    let acosReduction := estimateAcosImpact rows kch bch
    if currentAvgAcos = 0 then (if 0 < acosReduction then 100 else 0)
    else acosReduction / currentAvgAcos * 100

/-! ## optimizer.py: AI recommendations and the summary stage -/

/-- Line 387: the static message returned when no API key is configured. -/
def noKeyMessage : List String :=
  ["OpenAI API key not configured. AI recommendations unavailable."]

/-- Lines 503-508: the static fallback returned from the exception handler
of generate_ai_recommendations. -/
def fallbackMessages : List String :=
  ["An error occurred while generating AI recommendations.",
   "Please check the application logs for more details.",
   "Default advice: Review keywords with high ACOS and low conversions for potential pausing or bid reduction.",
   "Monitor keywords with recent bid changes closely for performance shifts."]

/-- The outcome of the external language-model call: the key may be absent,
the call may raise (any exception is caught by the handler of line 500), or
it may return a message list.  The call itself is external I/O and is
modelled by this oracle. -/
inductive AiOutcome
  | noKey
  | failure
  | success (msgs : List String)
deriving DecidableEq

/-- generate_ai_recommendations (lines 381-508), with the external model
call abstracted as an `AiOutcome`: no key yields the static no-key message,
any exception yields the static fallback set, and a successful call yields
the model's lines (the prompt construction is presentation only). -/
def generateAiRecommendations (o : AiOutcome) : List String :=
  match o with
  | .noKey => noKeyMessage
  | .failure => fallbackMessages
  | .success msgs => msgs

/-- `np.mean` of a value list; the source yields NaN on an empty list, a
case its callers guard (see generateSummaryStep). -/
def meanOf (l : List ℚ) : ℚ := l.sum / l.length

structure EstimatedImpact where
  projectedAcosReduction : ℚ
  costSaving : ℚ
  efficiencyImprovement : ℚ
deriving DecidableEq

structure OptSummary where
  totalKeywordsAnalyzed : ℕ
  keywordsToPause : ℕ
  keywordsToKeep : ℕ
  bidsToAdjust : ℕ
  bidsToIncrease : ℕ
  bidsToDecrease : ℕ
  avgPauseAcos : ℚ
  avgBidIncrease : ℚ
  avgBidDecrease : ℚ
  estimatedImpact : EstimatedImpact
  generalRecommendations : List String
deriving DecidableEq

/-- The LangGraph state threaded through the pipeline (the PPCState dict);
`df_campaign` and `debug_info` are not read by the embedded stages. -/
structure PState where
  rows : List STRow
  cfg : OptConfig
  keywordChanges : List KwChange
  bidChanges : List BidChange
  summary : Option OptSummary
  currentStep : String
deriving DecidableEq

def analyzeKeywordsStep (st : PState) : PState :=
  { st with keywordChanges := analyzeKeywords st.cfg st.rows,
            currentStep := "analyze_bids" }

def adjustBidsStep (st : PState) : PState :=
  { st with bidChanges := adjustBids st.keywordChanges st.cfg st.rows,
            currentStep := "generate_summary" }

/-- generate_optimization_summary (lines 254-298), with the AI call's
outcome passed in as an oracle.  `avg_pause_acos` averages the non-NaN
`original_data` ACOS values of the pause records (the source's `np.mean`
of an empty list — every paused record lacking an ACOS — is NaN; `meanOf`
renders that corner as 0). -/
def generateSummaryStep (o : AiOutcome) (st : PState) : PState :=
  let pauses := st.keywordChanges.filter (fun c => c.action == KwAction.pause)
  let keeps := st.keywordChanges.filter (fun c => c.action == KwAction.keep)
  let incs := st.bidChanges.filter (fun b => decide (0 < b.changePct))
  let decs := st.bidChanges.filter (fun b => decide (b.changePct < 0))
  let summary : OptSummary :=
    { totalKeywordsAnalyzed := st.rows.length,
      keywordsToPause := pauses.length,
      keywordsToKeep := keeps.length,
      bidsToAdjust := st.bidChanges.length,
      bidsToIncrease := incs.length,
      bidsToDecrease := decs.length,
      avgPauseAcos := if pauses ≠ [] then meanOf (pauses.filterMap (·.origAcos)) else 0,
      avgBidIncrease := if incs ≠ [] then meanOf (incs.map (·.changePct)) else 0,
      avgBidDecrease := if decs ≠ [] then meanOf (decs.map (·.changePct)) else 0,
      estimatedImpact :=
        { projectedAcosReduction := estimateAcosImpact st.rows st.keywordChanges st.bidChanges,
          costSaving := estimateCostSavings st.rows st.keywordChanges st.bidChanges,
          efficiencyImprovement := estimateEfficiencyImprovement st.rows st.keywordChanges st.bidChanges },
      generalRecommendations := generateAiRecommendations o }
  { st with summary := some summary, currentStep := "complete" }

/-- apply_optimization_rules: the three stages in workflow order. -/
def runPipeline (o : AiOutcome) (st : PState) : PState :=
  generateSummaryStep o (adjustBidsStep (analyzeKeywordsStep st))

/-! ## placement_adjuster.py: compute_placement_adjustments -/

/-- One campaign-sheet row as read by the placement adjuster: the `entität`
and `platzierung` text columns, the current modifier percentage
(`prozentsatz`) and the metric columns. -/
structure PRow where
  campaignId : ℕ
  entitaet : String
  platzierung : String
  currentPct : ℚ
  clicks : ℚ
  spend : ℚ
  sales : ℚ
deriving DecidableEq

/-- Line 48: `rpc = sales / clicks`, with `float('inf')` as the explicit
"no signal" sentinel on a zero-click row; `none` models that sentinel
(every later use only tests `rpc == inf`). -/
def rpcOf (r : PRow) : Option ℚ :=
  if r.clicks ≠ 0 then some (r.sales / r.clicks) else none

/-- Line 45: `calc_cpc = spend / clicks`, 0 on a zero-click row. -/
def cpcOf (r : PRow) : ℚ :=
  if r.clicks ≠ 0 then r.spend / r.clicks else 0

/-- Lines 31-34: the three recognised placement labels (lower-cased). -/
def placementKeys : List String :=
  ["platzierung produktseite", "platzierung rest der suche", "top-platzierung"]

/-- Lines 24-40: keep the `gebotsanpassung` entity rows whose cleaned
placement label is one of the three known placements. -/
def placementFilter (rows : List PRow) : List PRow :=
  (rows.filter (fun r => r.entitaet.toLower == "gebotsanpassung")).filter
    (fun r => placementKeys.contains r.platzierung.toLower.trim)

/-- Lines 56-59: the minimum RPC over the placements of the group that have
a defined (non-sentinel) RPC, or `none` when there is no such placement. -/
def minRpcOf (grp : List PRow) : Option ℚ :=
  match grp.filterMap rpcOf with
  | [] => none
  | v :: vs => some (vs.foldl min v)

/-- The value landing in `recommended_adjust_pct`: an ordinary float value,
the float nan / ±inf a zero `min_rpc` produces through the UNGUARDED
division of line 70, or Python's `None` (totals row only). -/
inductive AdjustVal
  | num (q : ℚ)
  | nan
  | inf
  | null
deriving DecidableEq

/-- Lines 70-73: `ratio = rpc / min_rpc`,
`recommended_pct = round(max(ratio - 1, 0) * 100, 1)` — with NO guard on
`min_rpc = 0` (reachable: a clicks > 0, sales = 0 placement has a defined
RPC of 0).  Under float semantics `0/0 = nan` (which survives
`max(nan, 0)`, `* 100` and `round(_, 1)` as nan), `x/0 = inf` for `x > 0`
(likewise surviving as inf), and `x/0 = -inf` for `x < 0` (which
`max(-inf, 0)` turns into 0). -/
def ratioAdjust (rpc minRpc : ℚ) : AdjustVal :=
  if minRpc ≠ 0 then .num (roundTo 1 (max (rpc / minRpc - 1) 0 * 100))
  else if rpc = 0 then .nan
  else if 0 < rpc then .inf
  else .num 0

/-- One output record; the totals row of a campaign leaves the
recommendation fields empty (`None`) and fills the `total*` display
fields. -/
structure PlacementRec where
  campaignId : ℕ
  placement : String
  currentPct : Option ℚ
  recommendedPct : AdjustVal
  cpc : Option ℚ
  rpc : Option ℚ
  minRpc : Option ℚ
  baseCpc : Option ℚ
  clicks : ℚ
  spend : ℚ
  sales : ℚ
  totalRpc : Option ℚ
  targetCpc : Option ℚ
  baseCpcTotal : Option ℚ
  minRpcTotal : Option ℚ
  isTotal : Bool
deriving DecidableEq

/-- Lines 62-89: the record for one placement row, given the campaign's
`min_rpc` and `base_cpc = min_rpc * target_acos`.  A sentinel RPC echoes
the current percentage unchanged; otherwise the unguarded `ratioAdjust`
formula applies.  The source's `current_acos` display field (absent `acos`
column yields None) is elided. -/
def placeRec (cid : ℕ) (minRpc baseCpc : ℚ) (r : PRow) : PlacementRec :=
  { campaignId := cid,
    placement := r.platzierung,
    currentPct := some r.currentPct,
    recommendedPct := (match rpcOf r with
      | none => .num r.currentPct
      | some v => ratioAdjust v minRpc),
    cpc := some (cpcOf r),
    rpc := (rpcOf r).map (roundTo 4),
    minRpc := some (roundTo 4 minRpc),
    baseCpc := some (roundTo 4 baseCpc),
    clicks := r.clicks, spend := r.spend, sales := r.sales,
    totalRpc := none, targetCpc := none, baseCpcTotal := none, minRpcTotal := none,
    isTotal := false }

/-- Lines 91-119: the synthetic "Gesamt" display row of a campaign. -/
def totalRec (cid : ℕ) (minRpc t : ℚ) (grp : List PRow) : PlacementRec :=
  let totalClicks := (grp.map (·.clicks)).sum
  let totalSpend := (grp.map (·.spend)).sum
  let totalSales := (grp.map (·.sales)).sum
  let totalRpc := if totalClicks ≠ 0 then some (totalSales / totalClicks) else none
  { campaignId := cid,
    placement := "Gesamt",
    currentPct := none, recommendedPct := .null, cpc := none,
    rpc := none, minRpc := none, baseCpc := none,
    clicks := totalClicks, spend := roundTo 2 totalSpend, sales := roundTo 2 totalSales,
    totalRpc := totalRpc.map (roundTo 4),
    targetCpc := totalRpc.map (fun v => roundTo 4 (v * t)),
    baseCpcTotal := some (roundTo 4 (minRpc * t)),
    minRpcTotal := some (roundTo 4 minRpc),
    isTotal := true }

/-- The body of the per-campaign groupby loop (lines 54-119): a campaign
with no defined RPC is skipped entirely (`continue` before anything is
appended); otherwise every placement row yields a record and the totals
row is appended last. -/
def processCampaign (t : ℚ) (cid : ℕ) (grp : List PRow) : List PlacementRec :=
  match minRpcOf grp with
  | none => []
  | some m => grp.map (placeRec cid m (m * t)) ++ [totalRec cid m t grp]

/-- compute_placement_adjustments (lines 5-121): filter the placement rows
and process each campaign group (pandas groupby iterates keys in sorted
order). -/
def computePlacementAdjustments (t : ℚ) (rows : List PRow) : List PlacementRec :=
  let dfPlace := placementFilter rows
  let cids := ((dfPlace.map (·.campaignId)).dedup).insertionSort (· ≤ ·)
  cids.foldl
    (fun acc cid =>
      acc ++ processCampaign t cid (dfPlace.filter (fun r => r.campaignId == cid))) []

/-! ## Concrete inputs used by the witnesses and counterexamples -/

def cfg0 : OptConfig := {}

/-- A classifier row with a known conversion rate below the minimum while
its known ACOS is at most the target (fractions: ACOS 15% vs target 20%,
CR 5% vs minimum 10%). -/
def kwRowLowCr : KwRow :=
  { entitaet := "Keyword", keyword := "kw1", clicks := 10, spend := 3,
    sales := 20, orders := 1, acos := some 0.15, conversionRate := some 0.05 }

/-- A classifier row with zero sales but otherwise healthy metrics. -/
def kwRowNoSales : KwRow :=
  { entitaet := "Keyword", keyword := "kw0", clicks := 40, spend := 2,
    sales := 0, orders := 3, acos := some 0.1, conversionRate := some 0.5 }

/-- A classifier row whose ACOS and conversion rate are both missing. -/
def kwRowAllMissing : KwRow :=
  { entitaet := "Keyword", keyword := "kw-m", clicks := 3, spend := 1,
    sales := 5, orders := 1, acos := none, conversionRate := none }

/-- Scenario C: clicks=20, current bid $1.00, ACOS 35%, target 20%. -/
def scenCRow : STRow :=
  { keyword := "kw-c", clicks := 20, orders := 1, spend := 7, sales := 20,
    acos := some 35, cpc := some 1, conversionRate := some 5 }

/-- A search-term row whose ACOS is missing (NaN). -/
def rowMissingAcos : STRow :=
  { keyword := "kw-na", clicks := 20, orders := 0, spend := 10, sales := 0,
    acos := none, cpc := some 1, conversionRate := none }

/-- A search-term row matching rule 1 of analyze_keywords (30 clicks, no
orders); listed twice below to exercise the missing duplicate guard. -/
def dupRow : STRow :=
  { keyword := "dup", clicks := 30, orders := 0, spend := 5, sales := 0,
    acos := none, cpc := some 1, conversionRate := none }

/-- A search-term row that yields a bid change (ACOS 50% vs target 20%). -/
def bidRow : STRow :=
  { keyword := "kw-b", clicks := 20, orders := 1, spend := 10, sales := 20,
    acos := some 50, cpc := some 1, conversionRate := none }

/-- The bid change adjust_bids emits for `bidRow` under the default config. -/
def bidRowChange : BidChange :=
  { keyword := "kw-b", currentBid := 1, newBid := 0.6, changePct := -40,
    reason := .muchHigherThanTarget 50 20 }

/-- A zero-click placement row with a nonzero current modifier. -/
def zeroClickPRow : PRow :=
  { campaignId := 3, entitaet := "Gebotsanpassung",
    platzierung := "Top-Platzierung", currentPct := 15, clicks := 0,
    spend := 0, sales := 0 }

/-- A placement row with a defined RPC of 3 in the same campaign. -/
def validPRow : PRow :=
  { campaignId := 3, entitaet := "Gebotsanpassung",
    platzierung := "Platzierung Produktseite", currentPct := 0, clicks := 10,
    spend := 4, sales := 30 }

/-- Scenario D, product page: RPC 2. -/
def scenDProd : PRow :=
  { campaignId := 7, entitaet := "Gebotsanpassung",
    platzierung := "Platzierung Produktseite", currentPct := 0, clicks := 10,
    spend := 5, sales := 20 }

/-- Scenario D, rest of search: RPC 1. -/
def scenDRest : PRow :=
  { campaignId := 7, entitaet := "Gebotsanpassung",
    platzierung := "Platzierung Rest der Suche", currentPct := 0, clicks := 10,
    spend := 5, sales := 10 }

/-- Scenario D, top of search: RPC 4. -/
def scenDTop : PRow :=
  { campaignId := 7, entitaet := "Gebotsanpassung",
    platzierung := "Top-Platzierung", currentPct := 0, clicks := 10,
    spend := 5, sales := 40 }

/-- Scenario D: one campaign whose placements have RPC 2, 1 and 4. -/
def scenD : List PRow := [scenDProd, scenDRest, scenDTop]

/-- A placement row with clicks but no sales: its RPC is DEFINED and 0. -/
def zeroSalesPRow : PRow :=
  { campaignId := 9, entitaet := "Gebotsanpassung",
    platzierung := "Top-Platzierung", currentPct := 0, clicks := 10,
    spend := 5, sales := 0 }

/-- A placement row with RPC 2 in the same campaign as `zeroSalesPRow`. -/
def posRpcPRow : PRow :=
  { campaignId := 9, entitaet := "Gebotsanpassung",
    platzierung := "Platzierung Produktseite", currentPct := 0, clicks := 10,
    spend := 5, sales := 20 }

/-- An initial pipeline state over an empty snapshot. -/
def st0 : PState :=
  { rows := [], cfg := cfg0, keywordChanges := [], bidChanges := [],
    summary := none, currentStep := "start" }

/-- A keyword is flagged with action `a` somewhere in a change list. -/
def hasAction (l : List KwChange) (k : String) (a : KwAction) : Prop :=
  ∃ c ∈ l, c.keyword = k ∧ c.action = a

/-! ## Helper lemmas -/

theorem accumStep_mem {α β : Type} (g : List β → α → Option β) (P : β → Prop)
    (hg : ∀ acc r c, g acc r = some c → P c) :
    ∀ (rows : List α) (acc : List β), (∀ b ∈ acc, P b) →
      ∀ b ∈ accumStep g acc rows, P b := by
  intro rows
  induction rows with
  | nil =>
      intro acc hacc b hb
      exact hacc b (by simpa [accumStep] using hb)
  | cons r rs ih =>
      intro acc hacc b hb
      simp only [accumStep] at hb
      cases hgr : g acc r with
      | none =>
          rw [hgr] at hb
          exact ih acc hacc b hb
      | some c =>
          rw [hgr] at hb
          refine ih _ ?_ b hb
          intro x hx
          rcases List.mem_append.1 hx with h1 | h2
          · exact hacc x h1
          · rw [List.mem_singleton.1 h2]
            exact hg acc r c hgr

theorem accumStep_invariant {α β : Type} (g : List β → α → Option β)
    (P : List β → Prop)
    (hstep : ∀ acc r, P acc →
      P (match g acc r with | some c => acc ++ [c] | none => acc)) :
    ∀ (rows : List α) (acc : List β), P acc → P (accumStep g acc rows) := by
  intro rows
  induction rows with
  | nil =>
      intro acc h
      simpa [accumStep] using h
  | cons r rs ih =>
      intro acc h
      simp only [accumStep]
      exact ih _ (hstep acc r h)

theorem foldl_min_le_mem :
    ∀ (vs : List ℚ) (v : ℚ), vs.foldl min v ≤ v ∧ ∀ x ∈ vs, vs.foldl min v ≤ x := by
  intro vs
  induction vs with
  | nil =>
      intro v
      exact ⟨le_refl v, by simp⟩
  | cons w ws ih =>
      intro v
      refine ⟨le_trans (ih (min v w)).1 (min_le_left v w), ?_⟩
      intro x hx
      rcases List.mem_cons.1 hx with rfl | hx'
      · exact le_trans (ih (min v x)).1 (min_le_right v x)
      · exact (ih (min v w)).2 x hx'

theorem foldl_min_mem :
    ∀ (vs : List ℚ) (v : ℚ), vs.foldl min v = v ∨ vs.foldl min v ∈ vs := by
  intro vs
  induction vs with
  | nil =>
      intro v
      exact Or.inl rfl
  | cons w ws ih =>
      intro v
      have hstep : List.foldl min v (w :: ws) = List.foldl min (min v w) ws := rfl
      rcases ih (min v w) with h | h
      · rcases min_choice v w with hv | hw
        · exact Or.inl (by rw [hstep, h, hv])
        · exact Or.inr (by rw [hstep, h, hw]; exact List.mem_cons_self w ws)
      · exact Or.inr (List.mem_cons_of_mem w (by rw [hstep]; exact h))

theorem minRpcOf_spec (grp : List PRow) (m : ℚ) (hm : minRpcOf grp = some m) :
    m ∈ grp.filterMap rpcOf ∧ ∀ x ∈ grp.filterMap rpcOf, m ≤ x := by
  unfold minRpcOf at hm
  cases h : grp.filterMap rpcOf with
  | nil =>
      rw [h] at hm
      simp at hm
  | cons v vs =>
      rw [h] at hm
      have hm' : vs.foldl min v = m := by simpa using hm
      subst hm'
      constructor
      · rcases foldl_min_mem vs v with h1 | h1
        · rw [h1]; exact List.mem_cons_self v vs
        · exact List.mem_cons_of_mem v h1
      · intro x hx
        rcases List.mem_cons.1 hx with rfl | hx'
        · exact (foldl_min_le_mem vs x).1
        · exact (foldl_min_le_mem vs v).2 x hx'

theorem roundHalfEven_nonneg (q : ℚ) (h : 0 ≤ q) : 0 ≤ roundHalfEven q := by
  unfold roundHalfEven
  have h0 : (0 : ℤ) ≤ ⌊q⌋ := Int.floor_nonneg.2 h
  split_ifs <;> omega

theorem roundTo_nonneg (d : ℕ) (q : ℚ) (h : 0 ≤ q) : 0 ≤ roundTo d q := by
  unfold roundTo
  apply div_nonneg
  · exact_mod_cast roundHalfEven_nonneg _ (by positivity)
  · positivity

theorem roundTo_zero (d : ℕ) : roundTo d 0 = 0 := by
  simp [roundTo, roundHalfEven]

theorem memKW_eq_false_of {acc : List KwChange} {k : String}
    (h : memKW acc k = false) (a : KwAction) : ¬ hasAction acc k a := by
  rw [memKW, List.any_eq_false] at h
  rintro ⟨c, hc, hck, _⟩
  exact absurd (by simpa using hck) (by simpa using h c hc)

theorem hasAction_append {l : List KwChange} {c : KwChange} {k : String}
    {a : KwAction} :
    hasAction (l ++ [c]) k a ↔ hasAction l k a ∨ (c.keyword = k ∧ c.action = a) := by
  simp [hasAction, List.mem_append, or_and_right, exists_or]

theorem hasAction_iff_any {l : List KwChange} {k : String} :
    hasAction l k .pause ↔
      l.any (fun c => c.keyword == k && c.action == KwAction.pause) = true := by
  simp [hasAction, List.any_eq_true]

/-! ## Claim theorems -/

/-- C6: every keyword row with `sales == 0` is classified bad ("schlecht",
reason "Keine Verkäufe") by classify_keywords, regardless of its clicks,
orders, ACOS or conversion-rate values — rule 1 dominates all later rules. -/
theorem classify_zero_sales_is_bad (t m : ℚ) (r : KwRow) (h : r.sales = 0) :
    classifyRow t m r = (.schlecht, .keineVerkaeufe) := by
  simp [classifyRow, h]

/-- Witness for C6: a row with zero sales, healthy ACOS (10% ≤ 20%),
conversion rate 50% and 3 orders is still classified bad. -/
theorem classify_zero_sales_is_bad_witness :
    kwRowNoSales.sales = 0 ∧
    classifyRow 0.2 0.1 kwRowNoSales = (.schlecht, .keineVerkaeufe) :=
  ⟨rfl, classify_zero_sales_is_bad 0.2 0.1 kwRowNoSales rfl⟩

/-- C1: for a keyword row to which rules 1 and 2 do not apply, a known ACOS
above target or a known conversion rate below the minimum makes the row bad,
and the reason names exactly the violated threshold(s): both, the ACOS one,
or the conversion-rate one.  In particular a known conversion rate below the
minimum suffices even when the known ACOS is at most the target. -/
theorem classify_rule3_threshold_violations (t m : ℚ) (r : KwRow)
    (h1 : 0 < r.sales) (h2 : ¬(25 ≤ r.clicks ∧ r.orders = 0))
    (h3 : oGt r.acos t = true ∨ oLt r.conversionRate m = true) :
    (classifyRow t m r).1 = .schlecht ∧
    (classifyRow t m r).2 =
      (if oGt r.acos t && oLt r.conversionRate m then
        KwReason.hoherAcosNiedrigeCr r.acos r.conversionRate
      else if oGt r.acos t then KwReason.acosUeberZiel r.acos
      else KwReason.niedrigeCr r.conversionRate) := by
  have h3' : (oGt r.acos t || oLt r.conversionRate m) = true := by
    rcases h3 with h | h <;> simp [h]
  simp only [classifyRow, if_neg h1.ne', if_neg h2, if_pos h3']
  split_ifs <;> exact ⟨rfl, rfl⟩

/-- Witness for C1: ACOS 15% ≤ target 20% but conversion rate 5% < minimum
10% — classified bad with the low-conversion-rate reason. -/
theorem classify_rule3_threshold_violations_witness :
    0 < kwRowLowCr.sales ∧ oLt kwRowLowCr.conversionRate 0.1 = true ∧
    (classifyRow 0.2 0.1 kwRowLowCr).1 = .schlecht ∧
    (classifyRow 0.2 0.1 kwRowLowCr).2 = KwReason.niedrigeCr (some 0.05) := by
  have h := classify_rule3_threshold_violations 0.2 0.1 kwRowLowCr
    (by norm_num [kwRowLowCr]) (by norm_num [kwRowLowCr])
    (Or.inr (by norm_num [oLt, kwRowLowCr]))
  refine ⟨by norm_num [kwRowLowCr], by norm_num [oLt, kwRowLowCr], h.1, ?_⟩
  rw [h.2]
  norm_num [kwRowLowCr, oGt, oLt]

/-- C7: the projected ACOS-reduction estimate returns 0 whenever the
aggregate is degenerate — sales after removing paused-keyword sales are 0,
current total sales are 0, or the recomputed spend is negative. -/
theorem acos_impact_degenerate_returns_zero (rows : List STRow)
    (kch : List KwChange) (bch : List BidChange)
    (h : newSalesOf rows kch = 0 ∨ sumSales rows = 0 ∨
         newSpendOf rows kch bch < 0) :
    estimateAcosImpact rows kch bch = 0 := by
  rw [estimateAcosImpact, if_pos h]

/-- Witness for C7: an empty snapshot has zero total sales, so the estimate
is 0. -/
theorem acos_impact_degenerate_returns_zero_witness :
    sumSales [] = 0 ∧ estimateAcosImpact [] [] [] = 0 :=
  ⟨rfl, acos_impact_degenerate_returns_zero [] [] [] (Or.inr (Or.inl rfl))⟩

/-- Counterexample for C3: adjust_bids does NOT propagate a missing ACOS as
missing — line 189 coerces NaN to 0.  On a concrete row with a missing ACOS
the bid decision equals the decision for the same row with ACOS 0, and the
emitted record is the output of the ACOS==0 branch (factor 0.7), so the
missing value was coerced to zero rather than kept missing. -/
theorem missing_acos_coerced_to_zero :
    bidDecision [] 20 rowMissingAcos =
        bidDecision [] 20 { rowMissingAcos with acos := some 0 } ∧
    bidDecision [] 20 rowMissingAcos =
      some { keyword := "kw-na", currentBid := 1, newBid := 0.7,
             changePct := -30, reason := .noConversions 20 } := by
  constructor <;>
    norm_num [bidDecision, rowMissingAcos, adjustmentFactor, bidChangeReason,
      abs_of_nonneg, abs_of_nonpos]

/-- C3 (amended): keyword classification propagates missing metrics through
its known-guards (a row with both ratios missing falls to the conservative
fallback instead of comparing a zero), and placement RPC on a zero-click
placement is the distinct "no signal" sentinel; but in bid adjustment a
missing ACOS is coerced to 0 before the factor computation (the ACOS==0
branches then act on it), and the zero-click placement CPC is likewise 0. -/
theorem missing_metrics_amended :
    (∀ (kch : List KwChange) (t : ℚ) (r : STRow), r.acos = none →
        bidDecision kch t r = bidDecision kch t { r with acos := some 0 }) ∧
    (∀ (t m : ℚ) (r : KwRow), r.sales ≠ 0 → ¬(25 ≤ r.clicks ∧ r.orders = 0) →
        r.acos = none → r.conversionRate = none →
        classifyRow t m r = (.schlecht, .fallbackAcosUeberZiel none)) ∧
    (∀ p : PRow, p.clicks = 0 → rpcOf p = none ∧ cpcOf p = 0) := by
  refine ⟨?_, ?_, ?_⟩
  · intro kch t r h
    simp [bidDecision, h]
  · intro t m r hs hc ha hcr
    simp [classifyRow, hs, hc, ha, hcr, oGt, oLt, oLe, oGe]
  · intro p h
    simp [rpcOf, cpcOf, h]

/-- Witness for the amended C3, at concrete inputs for all three parts. -/
theorem missing_metrics_amended_witness :
    bidDecision [] 20 rowMissingAcos =
        bidDecision [] 20 { rowMissingAcos with acos := some 0 } ∧
    classifyRow 0.2 0.1 kwRowAllMissing =
        (.schlecht, .fallbackAcosUeberZiel none) ∧
    (rpcOf zeroClickPRow = none ∧ cpcOf zeroClickPRow = 0) :=
  ⟨missing_metrics_amended.1 [] 20 rowMissingAcos rfl,
   missing_metrics_amended.2.1 0.2 0.1 kwRowAllMissing
     (by norm_num [kwRowAllMissing]) (by norm_num [kwRowAllMissing]) rfl rfl,
   missing_metrics_amended.2.2 zeroClickPRow rfl⟩

/-- C2: an eligible keyword (not flagged for pause, clicks above the
data-sufficiency threshold of 10) with a known ACOS strictly greater than
1.5 × target gets adjustment factor 0.6: the emitted bid change has
new_bid = current_bid × 0.6 and the much-higher-than-target reason.
`0 ≤ t` rules out a (meaningless) negative target. -/
theorem bid_factor_large_reduction (kch : List KwChange) (t : ℚ) (r : STRow)
    (a : ℚ)
    (hp : kch.any (fun c => c.keyword == r.keyword &&
            c.action == KwAction.pause) = false)
    (hc : 10 < r.clicks) (ha : r.acos = some a) (hgt : t * 1.5 < a)
    (ht : 0 ≤ t) :
    bidDecision kch t r =
      some { keyword := r.keyword, currentBid := r.cpc.getD 0,
             newBid := r.cpc.getD 0 * 0.6, changePct := (0.6 - 1) * 100,
             reason := .muchHigherThanTarget a t } := by
  have hapos : 0 < a := by nlinarith
  have hane : a ≠ 0 := ne_of_gt hapos
  have hf : adjustmentFactor a t r.orders = 0.6 := by
    rw [adjustmentFactor, if_neg (fun hx => hane hx.1),
      if_neg (fun hx => hane hx.1), if_pos hgt]
  have hr : bidChangeReason a t r.orders r.clicks =
      BidReason.muchHigherThanTarget a t := by
    rw [bidChangeReason, if_neg (fun hx => hane hx.1), if_pos hgt]
  unfold bidDecision
  rw [if_pos hc, if_neg (by simp [hp])]
  simp only [ha, Option.getD_some, hf, hr]
  rw [if_pos (by norm_num [abs_of_nonpos])]

/-- Witness for C2, Scenario C: clicks=20, current bid $1.00, ACOS 35%,
target 20% (35 > 30 = 1.5 × 20) yields a bid change to $0.60. -/
theorem bid_factor_large_reduction_witness :
    10 < scenCRow.clicks ∧ scenCRow.acos = some 35 ∧ (20 : ℚ) * 1.5 < 35 ∧
    bidDecision [] 20 scenCRow =
      some { keyword := "kw-c", currentBid := 1, newBid := 0.6,
             changePct := -40, reason := .muchHigherThanTarget 35 20 } := by
  refine ⟨by norm_num [scenCRow], rfl, by norm_num, ?_⟩
  have h := bid_factor_large_reduction [] 20 scenCRow 35 rfl
    (by norm_num [scenCRow]) rfl (by norm_num) (by norm_num)
  norm_num [scenCRow] at h ⊢
  exact h

/-- For a known ACOS above target (positive target), the factor is the
two-branch reduction: flat 0.6 past 1.5 × target, proportional `t / a`
in between (lines 199-204 of optimizer.py). -/
theorem adjustmentFactor_of_gt (t a o : ℚ) (ht : 0 < t) (h : t < a) :
    adjustmentFactor a t o = if t * 1.5 < a then 0.6 else t / a := by
  have ha : a ≠ 0 := ne_of_gt (lt_trans ht h)
  unfold adjustmentFactor
  rw [if_neg (fun hx => ha hx.1), if_neg (fun hx => ha hx.1)]
  by_cases hb : t * 1.5 < a
  · rw [if_pos hb, if_pos hb]
  · rw [if_neg hb, if_pos h, if_neg hb]

/-- C5: for eligible keywords the bid adjustment factor is monotonically
non-increasing in ACOS on the region ACOS > target, across the boundary
between the proportional branch (target/ACOS for target < ACOS ≤ 1.5×target)
and the flat 0.6 branch (ACOS > 1.5×target). -/
theorem bid_factor_monotone_above_target (t o a₁ a₂ : ℚ)
    (ht : 0 < t) (ho : 0 < o) (h1 : t < a₁) (h12 : a₁ ≤ a₂) :
    adjustmentFactor a₂ t o ≤ adjustmentFactor a₁ t o := by
  have h2 : t < a₂ := lt_of_lt_of_le h1 h12
  have ha1 : 0 < a₁ := lt_trans ht h1
  rw [adjustmentFactor_of_gt t a₁ o ht h1, adjustmentFactor_of_gt t a₂ o ht h2]
  by_cases hb1 : t * 1.5 < a₁
  · rw [if_pos hb1, if_pos (lt_of_lt_of_le hb1 h12)]
  · rw [if_neg hb1]
    by_cases hb2 : t * 1.5 < a₂
    · rw [if_pos hb2, le_div_iff₀ ha1]
      push_neg at hb1
      nlinarith
    · rw [if_neg hb2, div_eq_mul_inv, div_eq_mul_inv]
      exact mul_le_mul_of_nonneg_left (inv_anti₀ ha1 h12) ht.le

/-- Witness for C5: target 20%, one order; ACOS 25 (factor 20/25 = 0.8) vs
ACOS 35 (factor 0.6) — the factor does not increase. -/
theorem bid_factor_monotone_above_target_witness :
    adjustmentFactor 35 20 1 ≤ adjustmentFactor 25 20 1 :=
  bid_factor_monotone_above_target 20 1 25 35 (by norm_num) (by norm_num)
    (by norm_num) (by norm_num)

/-- Counterexample for C4: a campaign whose minimum defined RPC is 0 (a
placement with 10 clicks and 0 sales).  Line 70 divides by `min_rpc` with
no guard, so the minimum-RPC placement's recommendation is float nan (0/0)
and the positive-RPC placement's is inf (2/0) — NOT "exactly 0" and
"≥ 0" as the claim states. -/
theorem min_rpc_zero_breaks_formula :
    minRpcOf [zeroSalesPRow, posRpcPRow] = some 0 ∧
    rpcOf zeroSalesPRow = some 0 ∧
    (processCampaign 0.2 9 [zeroSalesPRow, posRpcPRow]).map
        (fun rec => rec.recommendedPct) =
      [AdjustVal.nan, AdjustVal.inf, AdjustVal.null] ∧
    AdjustVal.nan ≠ AdjustVal.num 0 := by
  have hmin : minRpcOf [zeroSalesPRow, posRpcPRow] = some 0 := by
    norm_num [minRpcOf, rpcOf, zeroSalesPRow, posRpcPRow, List.filterMap,
      min_def]
  refine ⟨hmin, by norm_num [rpcOf, zeroSalesPRow], ?_, by simp⟩
  simp only [processCampaign]
  rw [hmin]
  simp only [List.map_append, List.map_cons, List.map_nil, placeRec, totalRec]
  norm_num [rpcOf, ratioAdjust, zeroSalesPRow, posRpcPRow]

/-- C4 (amended): per campaign, min_rpc is the minimum RPC among placements
with a defined RPC; with no defined RPC the campaign emits nothing at all.
PROVIDED min_rpc ≠ 0, every placement with a defined RPC gets
recommended_adjust_pct = round(max(rpc/min_rpc − 1, 0) × 100, 1), which is 0
exactly at the minimum-RPC placement and nonnegative everywhere (Scenario D:
RPC {2, 1, 4} → {100.0, 0.0, 300.0}).  When min_rpc = 0 the unguarded float
division instead yields nan for a zero-RPC placement and inf for a
positive-RPC one. -/
theorem placement_adjust_formula (t : ℚ) (cid : ℕ) (grp : List PRow) :
    (minRpcOf grp = none → processCampaign t cid grp = []) ∧
    (∀ m, minRpcOf grp = some m →
      (m ∈ grp.filterMap rpcOf ∧ ∀ x ∈ grp.filterMap rpcOf, m ≤ x) ∧
      (∀ r ∈ grp, placeRec cid m (m * t) r ∈ processCampaign t cid grp) ∧
      (∀ r ∈ grp, ∀ x, rpcOf r = some x → m ≠ 0 →
        (placeRec cid m (m * t) r).recommendedPct =
            .num (roundTo 1 (max (x / m - 1) 0 * 100)) ∧
        0 ≤ roundTo 1 (max (x / m - 1) 0 * 100) ∧
        (x = m → (placeRec cid m (m * t) r).recommendedPct = .num 0)) ∧
      (m = 0 → ∀ r ∈ grp, ∀ x, rpcOf r = some x →
        (placeRec cid m (m * t) r).recommendedPct =
          (if x = 0 then AdjustVal.nan
           else if 0 < x then AdjustVal.inf else AdjustVal.num 0))) := by
  constructor
  · intro h
    simp [processCampaign, h]
  · intro m hm
    refine ⟨minRpcOf_spec grp m hm, ?_, ?_, ?_⟩
    · intro r hr
      simp only [processCampaign, hm]
      exact List.mem_append_left _ (List.mem_map_of_mem _ hr)
    · intro r hr x hx hm0
      refine ⟨by simp [placeRec, hx, ratioAdjust, hm0], ?_, ?_⟩
      · exact roundTo_nonneg _ _
          (mul_nonneg (le_max_right _ _) (by norm_num))
      · intro hxm
        subst hxm
        simp only [placeRec, hx, ratioAdjust, if_pos hm0]
        rw [div_self hm0]
        norm_num [roundTo_zero]
    · intro hm0 r hr x hx
      subst hm0
      simp [placeRec, hx, ratioAdjust]

/-- Witness for the amended C4, Scenario D: min_rpc = 1 ≠ 0, placements
with RPC 2, 1, 4 get recommendations 100%, 0%, 300%, and the totals row
carries no recommendation. -/
theorem placement_adjust_formula_witness :
    minRpcOf scenD = some 1 ∧
    (processCampaign 0.2 7 scenD).map (fun rec => rec.recommendedPct) =
        [AdjustVal.num 100, AdjustVal.num 0, AdjustVal.num 300,
         AdjustVal.null] ∧
    (placeRec 7 1 (1 * 0.2) scenDRest).recommendedPct = AdjustVal.num 0 := by
  have hmin : minRpcOf scenD = some 1 := by
    norm_num [minRpcOf, scenD, rpcOf, scenDProd, scenDRest, scenDTop,
      List.filterMap, min_def]
  have h100 : roundTo 1 (100 : ℚ) = 100 := by norm_num [roundTo, roundHalfEven]
  have h300 : roundTo 1 (300 : ℚ) = 300 := by norm_num [roundTo, roundHalfEven]
  refine ⟨hmin, ?_, ?_⟩
  · simp only [processCampaign]
    rw [hmin]
    simp only [scenD, List.map_append, List.map_cons, List.map_nil, placeRec,
      totalRec]
    norm_num [rpcOf, ratioAdjust, scenDProd, scenDRest, scenDTop, max_def,
      h100, h300, roundTo_zero]
  · exact (((placement_adjust_formula 0.2 7 scenD).2 1 hmin).2.2.1 scenDRest
      (by simp [scenD]) 1 (by norm_num [rpcOf, scenDRest])
      (by norm_num)).2.2 rfl

/-- C8: in a campaign that is processed (some placement has a defined RPC),
a zero-click placement row's record echoes the current adjustment unchanged
as its recommendation, and is an ordinary (non-total) record of the
campaign's output. -/
theorem zero_click_placement_echoes_current (t : ℚ) (cid : ℕ)
    (grp : List PRow) (m : ℚ) (hm : minRpcOf grp = some m) (r : PRow)
    (hr : r ∈ grp) (h0 : r.clicks = 0) :
    (placeRec cid m (m * t) r).recommendedPct = AdjustVal.num r.currentPct ∧
    placeRec cid m (m * t) r ∈ processCampaign t cid grp ∧
    (placeRec cid m (m * t) r).isTotal = false := by
  have hrpc : rpcOf r = none := by simp [rpcOf, h0]
  refine ⟨by simp [placeRec, hrpc], ?_, rfl⟩
  simp only [processCampaign, hm]
  exact List.mem_append_left _ (List.mem_map_of_mem _ hr)

/-- Witness for C8: a zero-click placement (current modifier 15%) in a
campaign whose other placement has RPC 3 keeps recommendation 15%. -/
theorem zero_click_placement_echoes_current_witness :
    (placeRec 3 3 (3 * 0.2) zeroClickPRow).recommendedPct =
        AdjustVal.num 15 ∧
    placeRec 3 3 (3 * 0.2) zeroClickPRow ∈
      processCampaign 0.2 3 [zeroClickPRow, validPRow] := by
  have h := zero_click_placement_echoes_current 0.2 3
    [zeroClickPRow, validPRow] 3
    (by norm_num [minRpcOf, rpcOf, zeroClickPRow, validPRow, List.filterMap])
    zeroClickPRow (by simp) rfl
  exact ⟨h.1, h.2.1⟩

/-- Counterexample for C9: two identical rows (30 clicks, no orders) both
match rule 1 of analyze_keywords, whose loop — unlike rules 2 and 3 — has no
duplicate guard, so the same keyword receives two pause records: a keyword
identifier does NOT appear in at most one keyword-decision record. -/
theorem duplicate_rows_yield_duplicate_decisions :
    ((analyzeKeywords cfg0 [dupRow, dupRow]).filter
        (fun c => c.keyword == "dup")).length = 2 ∧
    (analyzeKeywords cfg0 [dupRow, dupRow]).all
        (fun c => c.action == KwAction.pause) = true := by
  constructor <;>
    norm_num [analyzeKeywords, accumStep, ruleNoConv, ruleHighAcos, ruleKeep,
      optMask1, optMask2, optMask3, memKW, pauseNoConv, dupRow, cfg0,
      resolveTargetAcos, oGt, oLt, oLe, oGe, List.filter]

/-- Through the first two passes of analyze_keywords every record is a pause
record, and the keep pass only adds a record for a keyword with no record at
all, so no keyword ends the analysis with both a pause and a keep record. -/
theorem analyzePasses_no_pause_keep (t m thr : ℚ) (rows : List STRow)
    (k : String) :
    ¬(hasAction (accumStep (ruleKeep t m)
        (accumStep (ruleHighAcos t m)
          (accumStep (ruleNoConv thr) [] rows) rows) rows) k KwAction.pause ∧
      hasAction (accumStep (ruleKeep t m)
        (accumStep (ruleHighAcos t m)
          (accumStep (ruleNoConv thr) [] rows) rows) rows) k KwAction.keep) := by
  have hbase : ∀ c ∈ accumStep (ruleHighAcos t m)
      (accumStep (ruleNoConv thr) [] rows) rows, c.action = KwAction.pause := by
    refine accumStep_mem _ _ ?_ rows _
      (accumStep_mem _ _ ?_ rows [] (by simp))
    · intro acc r c hc
      unfold ruleHighAcos at hc
      split_ifs at hc
      obtain rfl := Option.some.inj hc
      rfl
    · intro acc r c hc
      unfold ruleNoConv at hc
      split_ifs at hc
      obtain rfl := Option.some.inj hc
      rfl
  refine accumStep_invariant (ruleKeep t m)
      (fun acc => ∀ k', ¬(hasAction acc k' KwAction.pause ∧
        hasAction acc k' KwAction.keep)) ?_ rows _ ?_ k
  · intro acc r hP
    cases hg : ruleKeep t m acc r with
    | none => exact hP
    | some c =>
        have hc := hg
        unfold ruleKeep at hc
        split_ifs at hc with hcond
        obtain rfl := Option.some.inj hc
        have hmem : memKW acc r.keyword = false := by
          simp only [Bool.and_eq_true] at hcond
          simpa using hcond.2
        intro k' hpk
        obtain ⟨hp, hk⟩ := hpk
        rw [hasAction_append] at hp hk
        rcases hp with hp | ⟨hck, hca⟩
        · rcases hk with hk | ⟨hck', -⟩
          · exact hP k' ⟨hp, hk⟩
          · rw [← hck'] at hp
            exact memKW_eq_false_of hmem KwAction.pause hp
        · exact absurd hca (by simp [keepGood])
  · intro k' hpk
    obtain ⟨-, hk⟩ := hpk
    obtain ⟨c, hc, -, hact⟩ := hk
    have hpause := hbase c hc
    rw [hact] at hpause
    exact KwAction.noConfusion hpause

/-- C9 (amended): a keyword never receives both a pause and a keep record
(the rule-2 and rule-3 loops skip already-flagged keywords), and no keyword
flagged for pause in the keyword-changes list ever appears in the bid-change
list; however a keyword CAN appear in several pause records when duplicate
rows each match rule 1 (see the counterexample). -/
theorem pause_keep_exclusive_and_paused_not_bid :
    (∀ (cfg : OptConfig) (rows : List STRow) (k : String),
        ¬(hasAction (analyzeKeywords cfg rows) k KwAction.pause ∧
          hasAction (analyzeKeywords cfg rows) k KwAction.keep)) ∧
    (∀ (kch : List KwChange) (cfg : OptConfig) (rows : List STRow)
        (bc : BidChange), bc ∈ adjustBids kch cfg rows →
        ¬ hasAction kch bc.keyword KwAction.pause) := by
  constructor
  · intro cfg rows k
    simpa only [analyzeKeywords] using
      analyzePasses_no_pause_keep (resolveTargetAcos cfg)
        cfg.minConversionRate cfg.keywordsMinClicks rows k
  · intro kch cfg rows bc hmem
    simp only [adjustBids] at hmem
    refine accumStep_mem _ (fun b => ¬ hasAction kch b.keyword KwAction.pause)
      ?_ rows [] (by simp) bc hmem
    intro acc r c hc
    unfold bidDecision at hc
    by_cases h1 : 10 < r.clicks
    · rw [if_pos h1] at hc
      by_cases h2 : kch.any (fun c => c.keyword == r.keyword &&
          c.action == KwAction.pause) = true
      · rw [if_pos h2] at hc
        simp at hc
      · rw [if_neg h2] at hc
        split_ifs at hc
        obtain rfl := Option.some.inj hc
        exact fun hp => h2 (hasAction_iff_any.1 hp)
    · rw [if_neg h1] at hc
      simp at hc

/-- Witness for the amended C9: a concrete bid change emitted for `bidRow`
(so its keyword is not pause-flagged in the empty change list), and the
pause/keep exclusivity at the duplicate-row input. -/
theorem pause_keep_exclusive_and_paused_not_bid_witness :
    bidRowChange ∈ adjustBids [] cfg0 [bidRow] ∧
    ¬ hasAction [] bidRowChange.keyword KwAction.pause ∧
    ¬(hasAction (analyzeKeywords cfg0 [dupRow, dupRow]) "dup" KwAction.pause ∧
      hasAction (analyzeKeywords cfg0 [dupRow, dupRow]) "dup" KwAction.keep) := by
  have hmem : bidRowChange ∈ adjustBids [] cfg0 [bidRow] := by
    norm_num [adjustBids, accumStep, bidDecision, bidRow, bidRowChange, cfg0,
      resolveTargetAcos, adjustmentFactor, bidChangeReason, abs_of_nonpos,
      abs_of_nonneg]
  refine ⟨hmem, ?_, ?_⟩
  · exact pause_keep_exclusive_and_paused_not_bid.2 [] cfg0 [bidRow]
      bidRowChange hmem
  · exact pause_keep_exclusive_and_paused_not_bid.1 cfg0 [dupRow, dupRow] "dup"

/-- C10: if the natural-language recommendation generator fails (missing API
key or any exception), the summary stage still completes: the summary is
produced with the corresponding static message set, and the keyword
decisions and bid changes of the state are untouched. -/
theorem ai_failure_degrades_gracefully (st : PState) (o : AiOutcome)
    (h : o = .noKey ∨ o = .failure) :
    ((generateSummaryStep o st).summary.map
        (fun s => s.generalRecommendations)) =
      some (if o = AiOutcome.noKey then noKeyMessage else fallbackMessages) ∧
    (generateSummaryStep o st).keywordChanges = st.keywordChanges ∧
    (generateSummaryStep o st).bidChanges = st.bidChanges ∧
    (generateSummaryStep o st).currentStep = "complete" := by
  rcases h with rfl | rfl <;>
    exact ⟨by simp [generateSummaryStep, generateAiRecommendations],
      rfl, rfl, rfl⟩

/-- Witness for C10: a failing generator on the empty snapshot still yields
a completed summary with the static fallback set and unchanged decisions. -/
theorem ai_failure_degrades_gracefully_witness :
    ((generateSummaryStep .failure st0).summary.map
        (fun s => s.generalRecommendations)) = some fallbackMessages ∧
    (generateSummaryStep .failure st0).keywordChanges = [] ∧
    (generateSummaryStep .failure st0).bidChanges = [] ∧
    (generateSummaryStep .failure st0).currentStep = "complete" := by
  have h := ai_failure_degrades_gracefully st0 .failure (Or.inr rfl)
  refine ⟨by simpa using h.1, h.2.1, h.2.2.1, h.2.2.2⟩

end AmazonAgent
